import Mathlib

/-!
Verification of the MemoryGraphExplorer web façade.

This file gives a shallow embedding of the parts of the repository that the
checked properties talk about:

* the StreamableHTTP transport client `MCPHTTPClient` and its request-id
  allocator `_next_id` (src/frontend/web_viewer/server.py),
* the result unwrapping of `MCPHTTPClient.call_tool`,
* the authentication layer `AuthManager.validate_request` / `require_auth`
  (src/frontend/web_viewer/auth.py),
* the file-fallback graph reader and search
  (src/web_viewer/mcp_memory_functions.py, src/web_viewer/unified_server.py),
* the `/api/entity`, `/api/search` and `/api/node-relations` route logic.

JSON values are modelled by the inductive `Json`; Python dictionaries become
association lists, Python exceptions become `Except`/`Option`, and the
unbounded Python integers become `Nat`/`Int`.
-/

/-- JSON values as produced by Python's `json.loads`.  Objects keep their
fields as an association list (Python dicts have unique keys, so lookup of
the first occurrence matches dict lookup). -/
inductive Json where
  | null
  | bool (b : Bool)
  | num (n : Int)
  | str (s : String)
  | arr (elems : List Json)
  | obj (fields : List (String × Json))

/-- Field lookup on a JSON object: `d.get(k)` on a dict, `none` otherwise. -/
def Json.getField (j : Json) (k : String) : Option Json :=
  match j with
  | .obj fields => (fields.find? (fun kv => kv.1 == k)).map (fun kv => kv.2)
  | _ => none

/-- Python truthiness of a JSON value (`bool(x)`): `None`, `False`, `0`,
empty string, empty list and empty dict are falsy. -/
def Json.truthy : Json → Bool
  | .null => false
  | .bool b => b
  | .num n => n != 0
  | .str s => s ≠ ""
  | .arr l => !l.isEmpty
  | .obj l => !l.isEmpty

/-- `strStarts p s` is true when the character list `s` starts with `p`. -/
def strStarts : List Char → List Char → Bool
  | [], _ => true
  | _ :: _, [] => false
  | a :: as, b :: bs => a == b && strStarts as bs

/-- `hasSub needle hay`: Python's substring test `needle in hay` on
character lists (the empty needle is a substring of everything). -/
def hasSub (needle : List Char) : List Char → Bool
  | [] => needle.isEmpty
  | c :: t => strStarts needle (c :: t) || hasSub needle t

/-- Python's `str.lower()`, modelled characterwise (ASCII case folding,
which is what the repository's data uses). -/
def pyLower (s : String) : List Char :=
  s.toList.map Char.toLower

/-! ## Transport Client: request-id allocation
(src/frontend/web_viewer/server.py, `MCPHTTPClient`). -/

/-- The state of `MCPHTTPClient` that the id allocator touches:
`self.request_id` (initially 0) and `self.connected` (initially False). -/
structure MCPHTTPClient where
  request_id : Nat
  connected : Bool

/-- `MCPHTTPClient._next_id`: `self.request_id += 1; return self.request_id`. -/
def MCPHTTPClient.next_id (c : MCPHTTPClient) : Nat × MCPHTTPClient :=
  let r := c.request_id + 1
  (r, { c with request_id := r })

/-- A fresh client instance (`MCPHTTPClient.__init__`). -/
def MCPHTTPClient.init : MCPHTTPClient :=
  { request_id := 0, connected := false }

/-- The operations on one client that allocate JSON-RPC request ids:
`connect()` sends one `initialize` request (the flag records whether the
connection attempt succeeds, which sets `self.connected`), and
`call_tool()` sends one `tools/call` request.  The `initialized`
notification carries no id. -/
inductive ClientOp where
  | connect (succeeds : Bool)
  | callTool

/-- One operation: the id it puts on the wire (if any) and the next state.
`call_tool` raises before allocating an id when the client is not
connected. -/
def runOp (c : MCPHTTPClient) : ClientOp → Option Nat × MCPHTTPClient
  | .connect ok =>
    let (i, c') := c.next_id
    (some i, { c' with connected := ok })
  | .callTool =>
    if c.connected then
      let (i, c') := c.next_id
      (some i, c')
    else (none, c)

/-- The sequence of request ids a client issues over a sequence of
operations. -/
def issuedIds (c : MCPHTTPClient) : List ClientOp → List Nat
  | [] => []
  | op :: ops =>
    match runOp c op with
    | (some i, c') => i :: issuedIds c' ops
    | (none, c') => issuedIds c' ops

theorem runOp_id_eq (c : MCPHTTPClient) (op : ClientOp) (i : Nat)
    (h : (runOp c op).1 = some i) :
    i = c.request_id + 1 ∧ (runOp c op).2.request_id = c.request_id + 1 := by
  cases op with
  | connect ok =>
    simp [runOp, MCPHTTPClient.next_id] at h ⊢
    omega
  | callTool =>
    by_cases hc : c.connected <;> simp [runOp, MCPHTTPClient.next_id, hc] at h ⊢
    omega

theorem runOp_request_id_le (c : MCPHTTPClient) (op : ClientOp) :
    c.request_id ≤ (runOp c op).2.request_id := by
  cases op with
  | connect ok => simp [runOp, MCPHTTPClient.next_id]
  | callTool =>
    by_cases hc : c.connected <;> simp [runOp, MCPHTTPClient.next_id, hc]

theorem mem_issuedIds_gt (ops : List ClientOp) :
    ∀ (c : MCPHTTPClient) (i : Nat), i ∈ issuedIds c ops → c.request_id < i := by
  induction ops with
  | nil => intro c i hi; simp [issuedIds] at hi
  | cons op ops ih =>
    intro c i hi
    rw [issuedIds] at hi
    rcases hr : runOp c op with ⟨oi, c'⟩
    rw [hr] at hi
    have hle : c.request_id ≤ c'.request_id := by
      have := runOp_request_id_le c op
      rw [hr] at this
      exact this
    cases oi with
    | none =>
      simp at hi
      exact lt_of_le_of_lt hle (ih c' i hi)
    | some j =>
      have hj : j = c.request_id + 1 ∧ c'.request_id = c.request_id + 1 := by
        have := runOp_id_eq c op j (by rw [hr])
        rw [hr] at this
        exact this
      simp at hi
      rcases hi with rfl | hi
      · omega
      · have := ih c' i hi
        omega

/-- Claim C1: request ids issued by one Transport Client instance over any
sequence of connect/call operations are strictly increasing and no id is
issued twice within the session. -/
theorem request_ids_strictly_increasing (c : MCPHTTPClient) (ops : List ClientOp) :
    (issuedIds c ops).Pairwise (· < ·) ∧ (issuedIds c ops).Nodup := by
  have hp : ∀ (ops : List ClientOp) (c : MCPHTTPClient),
      (issuedIds c ops).Pairwise (· < ·) := by
    intro ops
    induction ops with
    | nil => intro c; simp [issuedIds]
    | cons op ops ih =>
      intro c
      rw [issuedIds]
      rcases hr : runOp c op with ⟨oi, c'⟩
      cases oi with
      | none => exact ih c'
      | some j =>
        have hj : j = c.request_id + 1 ∧ c'.request_id = c.request_id + 1 := by
          have := runOp_id_eq c op j (by rw [hr])
          rw [hr] at this
          exact this
        refine List.Pairwise.cons ?_ (ih c')
        intro b hb
        have := mem_issuedIds_gt ops c' b hb
        omega
  refine ⟨hp ops c, ?_⟩
  exact (hp ops c).imp (fun h => Nat.ne_of_lt h)

/-! ## Auth Gate (src/frontend/web_viewer/auth.py). -/

/-- The value of one entry of `AuthManager.api_keys`:
`{"name": ..., "permissions": [...]}`. -/
structure KeyInfo where
  name : String
  permissions : List String
deriving DecidableEq, Repr

/-- `AuthManager` state after `__init__`: the key table and the
`AUTH_ENABLED` flag. -/
structure AuthManager where
  api_keys : List (String × KeyInfo)
  auth_enabled : Bool
deriving DecidableEq, Repr

/-- The request headers the auth gate reads: `X-API-Key` and
`Authorization`. -/
structure Headers where
  xApiKey : Option String
  authorization : Option String
deriving DecidableEq, Repr

def missingKeyMsg : String :=
  "Missing API key. Provide X-API-Key header or Authorization: Bearer token"

def invalidKeyMsg : String := "Invalid API key"

def insufficientMsg (required_permission : String) : String :=
  "Insufficient permissions. Required: " ++ required_permission

/-- The principal substituted when authentication is disabled. -/
def authDisabledInfo : KeyInfo :=
  ⟨"Auth Disabled", ["read", "write", "admin"]⟩

/-- Credential extraction of `validate_request`: `X-API-Key` first; when
that is missing or empty, a `Bearer ` token from `Authorization`; empty
string when neither yields a credential. -/
def extract_api_key (h : Headers) : String :=
  let k0 := h.xApiKey.getD ""
  if k0 ≠ "" then k0
  else
    let auth_header := (h.authorization.getD "").toList
    if strStarts "Bearer ".toList auth_header then String.mk (auth_header.drop 7)
    else ""

/-- `AuthManager.validate_request`: returns
`(is_valid, error_message, key_info)` exactly as the Python code does. -/
def validate_request (m : AuthManager) (h : Headers) (required_permission : String) :
    Bool × Option String × Option KeyInfo :=
  if !m.auth_enabled then (true, none, some authDisabledInfo)
  else
    let api_key := extract_api_key h
    if api_key = "" then (false, some missingKeyMsg, none)
    else
      match m.api_keys.lookup api_key with
      | none => (false, some invalidKeyMsg, none)
      | some key_info =>
        if !key_info.permissions.contains required_permission
            && !key_info.permissions.contains "admin" then
          (false, some (insufficientMsg required_permission), none)
        else (true, none, some key_info)

/-- The `require_auth(permission)` decorator: when validation fails it
short-circuits with status 401 and body
`{"error": "Unauthorized", "message": error}`; otherwise (`none`) the
wrapped route handler runs. -/
def require_auth_check (m : AuthManager) (h : Headers) (permission : String) :
    Option (Nat × String × String) :=
  let r := validate_request m h permission
  if !r.1 then some (401, "Unauthorized", r.2.1.getD "") else none

theorem contains_mem_iff {l : List String} {a : String} :
    l.contains a = true ↔ a ∈ l :=
  List.elem_iff

/-- Claim C3: with authentication enabled, a request with no credential is
rejected as unauthenticated (the missing-key error); a known credential
passes the check exactly when its permission set contains the required
permission or the wildcard "admin"; in particular a permission set
consisting of just "admin" passes every check. -/
theorem validate_request_spec (m : AuthManager) (h : Headers) (p : String) (ki : KeyInfo)
    (hen : m.auth_enabled = true) :
    (h.xApiKey = none → h.authorization = none →
       validate_request m h p = (false, some missingKeyMsg, none))
    ∧ (extract_api_key h ≠ "" → m.api_keys.lookup (extract_api_key h) = some ki →
        ((validate_request m h p).1 = true ↔
           p ∈ ki.permissions ∨ "admin" ∈ ki.permissions))
    ∧ (extract_api_key h ≠ "" → m.api_keys.lookup (extract_api_key h) = some ki →
        ki.permissions = ["admin"] → (validate_request m h p).1 = true) := by
  refine ⟨?_, ?_, ?_⟩
  · intro hx ha
    obtain ⟨x, a⟩ := h
    cases hx
    cases ha
    have he : extract_api_key ⟨none, none⟩ = "" := by decide
    simp [validate_request, hen, he]
  · intro hk hlook
    by_cases hp : p ∈ ki.permissions
    · simp [validate_request, hen, hk, hlook, hp, contains_mem_iff]
    · by_cases ha : "admin" ∈ ki.permissions
      · simp [validate_request, hen, hk, hlook, hp, ha, contains_mem_iff]
      · simp [validate_request, hen, hk, hlook, hp, ha, contains_mem_iff]
  · intro hk hlook hperm
    simp [validate_request, hen, hk, hlook, hperm, contains_mem_iff]

def c3m : AuthManager := ⟨[("key1", ⟨"alice", ["read"]⟩)], true⟩

def c3h : Headers := ⟨some "key1", none⟩

theorem validate_request_spec_witness :
    (validate_request c3m c3h "read").1 = true ↔
      "read" ∈ (⟨"alice", ["read"]⟩ : KeyInfo).permissions
      ∨ "admin" ∈ (⟨"alice", ["read"]⟩ : KeyInfo).permissions :=
  (validate_request_spec c3m c3h "read" ⟨"alice", ["read"]⟩ rfl).2.1
    (by decide) (by decide)

def c4m : AuthManager := ⟨[("key1", ⟨"alice", ["write"]⟩)], true⟩

def c4h : Headers := ⟨some "key1", none⟩

/-- Claim C4 counterexample: with auth enabled, a request presenting a
valid credential whose permission set is `["write"]` and requiring `read`
is rejected with HTTP status 401, not the 403 the claim requires. -/
theorem require_auth_forbidden_status_counterexample :
    (require_auth_check c4m c4h "read").map (fun t => t.1) = some 401
    ∧ (some 401 : Option Nat) ≠ some 403 := by
  constructor
  · decide
  · decide

/-- Claim C4 amended: when authentication is enabled and a request presents
a valid credential whose permission set lacks both the required permission
and "admin", the route layer responds with HTTP status 401 and body
`{"error": "Unauthorized", "message": insufficient-permissions}` — the
same 401 status used for missing or invalid credentials; no 403 is ever
produced. -/
theorem require_auth_insufficient_perm_401 (m : AuthManager) (h : Headers)
    (p : String) (ki : KeyInfo)
    (hen : m.auth_enabled = true)
    (hk : extract_api_key h ≠ "")
    (hlook : m.api_keys.lookup (extract_api_key h) = some ki)
    (hp : p ∉ ki.permissions) (ha : "admin" ∉ ki.permissions) :
    require_auth_check m h p = some (401, "Unauthorized", insufficientMsg p) := by
  simp [require_auth_check, validate_request, hen, hk, hlook,
    contains_mem_iff, hp, ha]

theorem require_auth_insufficient_perm_401_witness :
    require_auth_check c4m c4h "read" = some (401, "Unauthorized", insufficientMsg "read") :=
  require_auth_insufficient_perm_401 c4m c4h "read" ⟨"alice", ["write"]⟩
    rfl (by decide) (by decide) (by decide) (by decide)

/-! ## Graph data model and the file-fallback search
(src/web_viewer/unified_server.py, `MCPInterface._search_fallback`). -/

/-- An entity record: `name`, `entityType`, `observations`. -/
structure Entity where
  name : String
  entityType : String
  observations : List String
deriving DecidableEq, Repr

/-- A relation record: `from`, `to`, `relationType` (the Python key `from`
is a Lean keyword, hence the underscore). -/
structure Relation where
  from_ : String
  to_ : String
  relationType : String
deriving DecidableEq, Repr

/-- A graph snapshot `{entities, relations}`. -/
structure Graph where
  entities : List Entity
  relations : List Relation
deriving DecidableEq, Repr

/-- The entity filter of `_search_fallback`: case-insensitive substring
match of the query against the name, the entity type, or any observation. -/
def entityMatches (query_lower : List Char) (e : Entity) : Bool :=
  hasSub query_lower (pyLower e.name)
  || hasSub query_lower (pyLower e.entityType)
  || e.observations.any (fun obs => hasSub query_lower (pyLower obs))

/-- `MCPInterface._search_fallback` (src/web_viewer/unified_server.py
lines 148-171): filters entities by substring match and then keeps exactly
the relations whose `from` and `to` endpoints are both names of matching
entities. -/
def search_fallback (g : Graph) (query : String) : Graph :=
  let query_lower := pyLower query
  let matching_entities := g.entities.filter (entityMatches query_lower)
  let entity_names := matching_entities.map (fun e => e.name)
  let matching_relations := g.relations.filter (fun r =>
    entity_names.contains r.from_ && entity_names.contains r.to_)
  ⟨matching_entities, matching_relations⟩

/-- Modelled from the spec wording of claim C5: entities filtered as in
`_search_fallback`, but relations kept whenever the lowercased query is a
substring of the `from` endpoint, the `to` endpoint, or the relation
type. -/
def searchClaimC5 (g : Graph) (query : String) : Graph :=
  let query_lower := pyLower query
  ⟨g.entities.filter (entityMatches query_lower),
   g.relations.filter (fun r =>
     hasSub query_lower (pyLower r.from_)
     || hasSub query_lower (pyLower r.to_)
     || hasSub query_lower (pyLower r.relationType))⟩

def c5g : Graph :=
  ⟨[⟨"Alice", "Person", []⟩, ⟨"Bob", "Person", []⟩],
   [⟨"Alice", "Bob", "knows"⟩]⟩

/-- Claim C5 counterexample: on a graph with entities Alice and Bob and one
relation Alice→Bob of type "knows", searching "knows" returns no relations
(no entity matches, so no relation has both endpoints among the matches),
while the claimed field-substring semantics would return the relation. -/
theorem search_fallback_counterexample :
    search_fallback c5g "knows" ≠ searchClaimC5 c5g "knows" := by
  decide

/-- Claim C5 amended: the file-fallback search returns exactly the entities
for which the lowercased query is a substring of the name, the entity type
or some observation, together with exactly the relations both of whose
endpoints are names of matching entities (relation fields themselves are
never matched). -/
theorem search_fallback_spec (g : Graph) (q : String) :
    (∀ e, e ∈ (search_fallback g q).entities ↔
       e ∈ g.entities ∧ entityMatches (pyLower q) e = true)
    ∧ (∀ r, r ∈ (search_fallback g q).relations ↔
        r ∈ g.relations
        ∧ r.from_ ∈ (g.entities.filter (entityMatches (pyLower q))).map (fun e => e.name)
        ∧ r.to_ ∈ (g.entities.filter (entityMatches (pyLower q))).map (fun e => e.name)) := by
  constructor
  · intro e
    simp [search_fallback, List.mem_filter]
  · intro r
    simp [search_fallback, List.mem_filter, contains_mem_iff, and_assoc]

/-! ## File-fallback readers
(src/web_viewer/mcp_memory_functions.py `_read_memory_file`,
src/web_viewer/unified_server.py `_read_file_fallback`). -/

/-- One line of the memory file, as seen after the `json.loads` attempt:
blank lines are skipped, `bad` stands for a line whose JSON parse
raises. -/
inductive Line where
  | blank
  | ok (item : Json)
  | bad

/-- The raw `{"entities": ..., "relations": ...}` result of the readers
(lists of the raw JSON records). -/
structure RawGraph where
  entities : List Json
  relations : List Json

/-- `item.get('type') == tag`: false when the key is missing or the value
is not the given string. -/
def typeIs (item : Json) (tag : String) : Bool :=
  match item.getField "type" with
  | some (.str s) => s == tag
  | _ => false

/-- The line loop of `MCPMemoryClient._read_memory_file` (lines 49-55):
partitions the parsed records by their `type` tag, keeping file order;
`none` when some line raises (a failed JSON parse, or `.get` called on a
non-dict line). -/
def readLines : List Line → Option (List Json × List Json)
  | [] => some ([], [])
  | .blank :: rest => readLines rest
  | .bad :: _ => none
  | .ok item :: rest =>
    match item with
    | .obj _ =>
      (readLines rest).map (fun er =>
        if typeIs item "entity" then (item :: er.1, er.2)
        else if typeIs item "relation" then (er.1, item :: er.2)
        else er)
    | _ => none

/-- `MCPMemoryClient._read_memory_file`: a missing file, or any raising
line, yields the empty snapshot; otherwise the partitioned records. -/
def read_memory_file (file : Option (List Line)) : RawGraph :=
  match file with
  | none => ⟨[], []⟩
  | some lines =>
    match readLines lines with
    | none => ⟨[], []⟩
    | some (es, rs) => ⟨es, rs⟩

/-- A well-formed JSONL record of the memory file: an entity line or a
relation line. -/
inductive Record where
  | entity (e : Entity)
  | relation (r : Relation)

/-- The JSON object a record is serialized as (one JSONL line). -/
def Record.toJson : Record → Json
  | .entity e =>
    .obj [("type", .str "entity"), ("name", .str e.name),
          ("entityType", .str e.entityType),
          ("observations", .arr (e.observations.map Json.str))]
  | .relation r =>
    .obj [("type", .str "relation"), ("from", .str r.from_),
          ("to", .str r.to_), ("relationType", .str r.relationType)]

/-- The entity lines of a record list, in order, as JSON. -/
def entityRecords (records : List Record) : List Json :=
  records.filterMap (fun r => match r with
    | .entity _ => some r.toJson
    | .relation _ => none)

/-- The relation lines of a record list, in order, as JSON. -/
def relationRecords (records : List Record) : List Json :=
  records.filterMap (fun r => match r with
    | .entity _ => none
    | .relation _ => some r.toJson)

theorem readLines_cons_entity (e : Entity) (rest : List Line) :
    readLines (Line.ok (Record.toJson (.entity e)) :: rest)
      = (readLines rest).map (fun er => (Record.toJson (.entity e) :: er.1, er.2)) :=
  rfl

theorem readLines_cons_relation (r : Relation) (rest : List Line) :
    readLines (Line.ok (Record.toJson (.relation r)) :: rest)
      = (readLines rest).map (fun er => (er.1, Record.toJson (.relation r) :: er.2)) :=
  rfl

theorem readLines_records (records : List Record) :
    readLines (records.map (fun r => Line.ok r.toJson))
      = some (entityRecords records, relationRecords records) := by
  induction records with
  | nil => rfl
  | cons r rest ih =>
    cases r with
    | entity e =>
      simp only [List.map_cons]
      rw [readLines_cons_entity, ih]
      rfl
    | relation rl =>
      simp only [List.map_cons]
      rw [readLines_cons_relation, ih]
      rfl

theorem records_perm (records : List Record) :
    (entityRecords records ++ relationRecords records).Perm
      (records.map Record.toJson) := by
  induction records with
  | nil => simp [entityRecords, relationRecords]
  | cons r rest ih =>
    cases r with
    | entity e =>
      simpa [entityRecords, relationRecords] using ih.cons (Record.toJson (.entity e))
    | relation rl =>
      simp only [entityRecords, relationRecords, List.filterMap_cons, List.map_cons]
      exact List.perm_middle.trans (ih.cons (Record.toJson (.relation rl)))

/-- Claim C6: writing any list of well-formed entity/relation records as
JSONL lines and reading them back through `_read_memory_file` yields a
snapshot holding exactly those records: the entity lines (in file order)
as `entities`, the relation lines as `relations`, and — via the final
permutation — nothing else, so the resulting multiset of records does not
depend on the order of the lines. -/
theorem read_memory_file_roundtrip (records : List Record) :
    (read_memory_file (some (records.map (fun r => Line.ok r.toJson)))).entities
        = entityRecords records
    ∧ (read_memory_file (some (records.map (fun r => Line.ok r.toJson)))).relations
        = relationRecords records
    ∧ ((read_memory_file (some (records.map (fun r => Line.ok r.toJson)))).entities
        ++ (read_memory_file (some (records.map (fun r => Line.ok r.toJson)))).relations).Perm
        (records.map Record.toJson) := by
  have h1 : read_memory_file (some (records.map (fun r => Line.ok r.toJson)))
      = ⟨entityRecords records, relationRecords records⟩ := by
    simp [read_memory_file, readLines_records]
  refine ⟨by rw [h1], by rw [h1], ?_⟩
  rw [h1]
  exact records_perm records

/-- The per-record projection of `MCPInterface._read_file_fallback`
(unified_server.py lines 123-135): an entity line must carry `name` and
`entityType` (a missing key raises `KeyError`), `observations` defaults to
`[]`; a relation line must carry `from`, `to` and `relationType`; lines
with another `type` tag are skipped; a non-dict line raises.  `error`
stands for the raised exception. -/
def fbRecord (item : Json) : Except Unit (Option (Json ⊕ Json)) :=
  match item with
  | .obj _ =>
    if typeIs item "entity" then
      match item.getField "name", item.getField "entityType" with
      | some n, some t =>
        .ok (some (.inl (.obj [("name", n), ("entityType", t),
          ("observations", (item.getField "observations").getD (.arr []))])))
      | _, _ => .error ()
    else if typeIs item "relation" then
      match item.getField "from", item.getField "to",
          item.getField "relationType" with
      | some f, some t, some rt =>
        .ok (some (.inr (.obj [("from", f), ("to", t), ("relationType", rt)])))
      | _, _, _ => .error ()
    else .ok none
  | _ => .error ()

/-- The per-file loop of `_read_file_fallback`.  The accumulated lists
live outside the `try`, so when a line raises they are kept as they stand;
the Bool reports whether the file was processed to the end (which makes
the path loop `break`). -/
def fbLoop : List Json × List Json → List Line → (List Json × List Json) × Bool
  | acc, [] => (acc, true)
  | acc, .blank :: rest => fbLoop acc rest
  | acc, .bad :: _ => (acc, false)
  | acc, .ok item :: rest =>
    match fbRecord item with
    | .error _ => (acc, false)
    | .ok none => fbLoop acc rest
    | .ok (some (.inl e)) => fbLoop (acc.1 ++ [e], acc.2) rest
    | .ok (some (.inr r)) => fbLoop (acc.1, acc.2 ++ [r]) rest

/-- The path loop of `_read_file_fallback`: missing paths are skipped, the
loop breaks after the first file read to the end, and a file that raised
mid-way leaves its partial records in place while the next path is
tried. -/
def fbPaths (acc : List Json × List Json) :
    List (Option (List Line)) → RawGraph
  | [] => ⟨acc.1, acc.2⟩
  | none :: rest => fbPaths acc rest
  | some lines :: rest =>
    match fbLoop acc lines with
    | (acc', true) => ⟨acc'.1, acc'.2⟩
    | (acc', false) => fbPaths acc' rest

/-- `MCPInterface._read_file_fallback` (unified_server.py lines 104-146). -/
def read_file_fallback (paths : List (Option (List Line))) : RawGraph :=
  fbPaths ([], []) paths

def c7entity : Json := Record.toJson (.entity ⟨"Alice", "Person", []⟩)

def c7paths : List (Option (List Line)) := [some [.ok c7entity, .bad]]

/-- Claim C7 counterexample: a file whose first line is a valid entity
record and whose second line fails to parse makes `_read_file_fallback`
return a partial snapshot still containing the first entity — not the
empty snapshot the claim requires. -/
theorem read_file_fallback_counterexample :
    read_file_fallback c7paths ≠ ⟨[], []⟩ := by
  intro h
  have h1 := congrArg (fun g => g.entities.length) h
  exact absurd h1 (by decide)

/-- The entity lines of a record list as `_read_file_fallback` projects
them (without the `type` tag, observations defaulted). -/
def fbEntityRecords (records : List Record) : List Json :=
  records.filterMap (fun r => match r with
    | .entity e => some (.obj [("name", .str e.name),
        ("entityType", .str e.entityType),
        ("observations", .arr (e.observations.map Json.str))])
    | .relation _ => none)

/-- The relation lines of a record list as `_read_file_fallback` projects
them. -/
def fbRelationRecords (records : List Record) : List Json :=
  records.filterMap (fun r => match r with
    | .entity _ => none
    | .relation rl => some (.obj [("from", .str rl.from_),
        ("to", .str rl.to_), ("relationType", .str rl.relationType)]))

theorem fbLoop_records (records : List Record) (acc : List Json × List Json)
    (tail : List Line) :
    fbLoop acc (records.map (fun r => Line.ok r.toJson) ++ tail)
      = fbLoop (acc.1 ++ fbEntityRecords records, acc.2 ++ fbRelationRecords records)
          tail := by
  induction records generalizing acc with
  | nil => simp [fbEntityRecords, fbRelationRecords]
  | cons r rest ih =>
    cases r with
    | entity e =>
      simp only [List.map_cons, List.cons_append]
      rw [show fbLoop acc (Line.ok (Record.toJson (.entity e))
            :: (rest.map (fun r => Line.ok r.toJson) ++ tail))
          = fbLoop (acc.1 ++ [Json.obj [("name", .str e.name),
              ("entityType", .str e.entityType),
              ("observations", .arr (e.observations.map Json.str))]], acc.2)
            (rest.map (fun r => Line.ok r.toJson) ++ tail) from rfl]
      rw [ih]
      simp [fbEntityRecords, fbRelationRecords]
    | relation rl =>
      simp only [List.map_cons, List.cons_append]
      rw [show fbLoop acc (Line.ok (Record.toJson (.relation rl))
            :: (rest.map (fun r => Line.ok r.toJson) ++ tail))
          = fbLoop (acc.1, acc.2 ++ [Json.obj [("from", .str rl.from_),
              ("to", .str rl.to_), ("relationType", .str rl.relationType)]])
            (rest.map (fun r => Line.ok r.toJson) ++ tail) from rfl]
      rw [ih]
      simp [fbEntityRecords, fbRelationRecords]

theorem readLines_of_bad (lines : List Line) (hb : Line.bad ∈ lines) :
    readLines lines = none := by
  induction lines with
  | nil => cases hb
  | cons l rest ih =>
    cases l with
    | blank =>
      rw [readLines]
      cases hb with
      | tail _ hb => exact ih hb
    | bad => rfl
    | ok item =>
      cases hb with
      | tail _ hb =>
        cases item with
        | obj fields =>
          have hstep : readLines (Line.ok (Json.obj fields) :: rest)
              = (readLines rest).map (fun er =>
                  if typeIs (Json.obj fields) "entity" then (Json.obj fields :: er.1, er.2)
                  else if typeIs (Json.obj fields) "relation" then (er.1, Json.obj fields :: er.2)
                  else er) := rfl
          rw [hstep, ih hb]
          rfl
        | null => rfl
        | bool b => rfl
        | num n => rfl
        | str s => rfl
        | arr elems => rfl

/-- Claim C7 amended: `_read_memory_file` does behave as the claim says —
a missing file or any line failing to parse yields the empty snapshot and
no error — but `_read_file_fallback` does not: the records accumulated
before the first malformed line are kept (a partial snapshot) and the next
candidate path is tried with that partial accumulation. -/
theorem fallback_reader_error_policy (lines : List Line) (records : List Record)
    (rest : List Line) (hb : Line.bad ∈ lines) :
    read_memory_file none = ⟨[], []⟩
    ∧ read_memory_file (some lines) = ⟨[], []⟩
    ∧ read_file_fallback [some (records.map (fun r => Line.ok r.toJson)
          ++ Line.bad :: rest)]
        = ⟨fbEntityRecords records, fbRelationRecords records⟩ := by
  refine ⟨rfl, ?_, ?_⟩
  · rw [read_memory_file, readLines_of_bad lines hb]
  · rw [read_file_fallback, fbPaths, fbLoop_records]
    rfl

theorem fallback_reader_error_policy_witness :
    read_memory_file (some [Line.bad]) = ⟨[], []⟩ :=
  (fallback_reader_error_policy [Line.bad] [] [] (List.mem_singleton.mpr rfl)).2.1

/-! ## Tool adapter operations over a graph snapshot
(src/web_viewer/mcp_memory_functions.py) and the `/api/entity` and
`/api/search` routes (src/frontend/web_viewer/server.py). -/

/-- `mcp_memory_open_nodes(names)` (mcp_memory_functions.py lines
111-123): the entities whose name is among the requested names, in
snapshot order. -/
def mcp_memory_open_nodes (g : Graph) (names : List String) : List Entity :=
  g.entities.filter (fun e => names.contains e.name)

/-- The result dict of `mcp_memory_get_node_relations`. -/
structure NodeRelations where
  outgoing : List Relation
  incoming : List Relation
  connected_entities : List String
deriving DecidableEq, Repr

/-- `mcp_memory_get_node_relations(entity_name)` (lines 125-144): outgoing
relations (`from == name`), incoming relations (`to == name`), and the
deduplicated neighbour names.  Python builds `list(set(...))`, whose
order is unspecified; the model uses `List.dedup`, which agrees with the
set elementwise — the properties below only use membership. -/
def mcp_memory_get_node_relations (g : Graph) (entity_name : String) :
    NodeRelations :=
  let outgoing := g.relations.filter (fun r => r.from_ == entity_name)
  let incoming := g.relations.filter (fun r => r.to_ == entity_name)
  ⟨outgoing, incoming,
   (outgoing.map (fun r => r.to_) ++ incoming.map (fun r => r.from_)).dedup⟩

/-- The outcome of a route handler: a 200 value, or an error status with a
message body. -/
inductive ApiResult (α : Type) where
  | ok (value : α)
  | error (status : Nat) (msg : String)
deriving DecidableEq, Repr

/-- The HTTP status of a route outcome. -/
def ApiResult.status {α : Type} : ApiResult α → Nat
  | .ok _ => 200
  | .error st _ => st

/-- The `/api/entity` route handler `get_entity`
(src/frontend/web_viewer/server.py lines 305-337), with the tool calls
given the memory-file semantics of mcp_memory_functions.py: a missing or
empty name is rejected with 400 before any lookup; otherwise one
`open_nodes` call and one `get_node_relations` call whose outgoing and
incoming lists are concatenated; 404 when `open_nodes` matched nothing. -/
def get_entity (g : Graph) (entity_name : String) :
    ApiResult (Entity × List Relation) :=
  if entity_name = "" then .error 400 "Entity name required"
  else
    let open_result := mcp_memory_open_nodes g [entity_name]
    let nr := mcp_memory_get_node_relations g entity_name
    let relations := nr.outgoing ++ nr.incoming
    match open_result with
    | [] => .error 404 ("Entity not found: " ++ entity_name)
    | e :: _ => .ok (e, relations)

/-- Claim C8 counterexample: at the empty snapshot and the empty entity
name, no entity with that exact name is present, yet the route answers
status 400 ("Entity name required"), not the 404/NotFound the claim
requires. -/
theorem get_entity_counterexample :
    get_entity ⟨[], []⟩ "" = .error 400 "Entity name required"
    ∧ (⟨[], []⟩ : Graph).entities.filter (fun e => e.name == "") = []
    ∧ (400 : Nat) ≠ 404 := by
  refine ⟨rfl, rfl, by decide⟩

theorem find?_eq_filter_head {α : Type} (p : α → Bool) (l : List α) :
    l.find? p = (l.filter p).head? :=
  Eq.symm (List.filter_head? p l)

/-- Claim C8 amended: for every non-empty entity name, the `/api/entity`
route fails with 404 NotFound exactly when no entity with that exact name
is in the snapshot; for a present name it returns the first entity with
that name together with the concatenation of its outgoing and incoming
relations.  (The empty name is answered with 400 before any lookup.) -/
theorem get_entity_spec (g : Graph) (entity_name : String)
    (hne : entity_name ≠ "") :
    (get_entity g entity_name = .error 404 ("Entity not found: " ++ entity_name)
       ↔ ∀ e ∈ g.entities, e.name ≠ entity_name)
    ∧ (∀ e, g.entities.find? (fun e => e.name == entity_name) = some e →
        get_entity g entity_name
          = .ok (e, (mcp_memory_get_node_relations g entity_name).outgoing
              ++ (mcp_memory_get_node_relations g entity_name).incoming)) := by
  have hopen : mcp_memory_open_nodes g [entity_name]
      = g.entities.filter (fun e => e.name == entity_name) := by
    unfold mcp_memory_open_nodes
    refine List.filter_congr ?_
    intro e _
    simp only [List.contains_cons, List.contains_nil, Bool.or_false]
  constructor
  · rw [get_entity, if_neg hne, hopen]
    cases hf : g.entities.filter (fun e => e.name == entity_name) with
    | nil =>
      simp only [List.filter_eq_nil_iff] at hf
      constructor
      · intro _ e he
        have := hf e he
        simpa using this
      · intro _
        rfl
    | cons e es =>
      constructor
      · intro h
        cases h
      · intro hall
        exfalso
        have he : e ∈ g.entities.filter (fun e => e.name == entity_name) := by
          rw [hf]; exact List.mem_cons_self e es
        rw [List.mem_filter] at he
        exact hall e he.1 (by simpa using he.2)
  · intro e hfind
    rw [find?_eq_filter_head] at hfind
    rw [get_entity, if_neg hne, hopen]
    cases hf : g.entities.filter (fun e => e.name == entity_name) with
    | nil => rw [hf] at hfind; cases hfind
    | cons e' es =>
      rw [hf] at hfind
      simp only [List.head?_cons, Option.some.injEq] at hfind
      subst hfind
      rfl

def c8g : Graph := ⟨[⟨"Alice", "Person", []⟩], [⟨"Alice", "Bob", "knows"⟩]⟩

theorem get_entity_spec_witness :
    get_entity c8g "Carol" = .error 404 ("Entity not found: " ++ "Carol")
      ↔ ∀ e ∈ c8g.entities, e.name ≠ "Carol" :=
  (get_entity_spec c8g "Carol" (by decide)).1

/-- Claim C10: a self-loop relation on `n` is returned by
`mcp_memory_get_node_relations` in both the outgoing and the incoming
list, `n` itself is among the connected entities, and the concatenated
relation list that `get_entity` returns contains the relation twice per
occurrence in the snapshot — in particular at least twice. -/
theorem self_loop_duplicated (g : Graph) (n : String) (r : Relation) (e : Entity)
    (hr : r ∈ g.relations) (hf : r.from_ = n) (ht : r.to_ = n) (hne : n ≠ "")
    (he : g.entities.find? (fun e => e.name == n) = some e) :
    r ∈ (mcp_memory_get_node_relations g n).outgoing
    ∧ r ∈ (mcp_memory_get_node_relations g n).incoming
    ∧ n ∈ (mcp_memory_get_node_relations g n).connected_entities
    ∧ ((mcp_memory_get_node_relations g n).outgoing
        ++ (mcp_memory_get_node_relations g n).incoming).count r
        = 2 * g.relations.count r
    ∧ 2 ≤ ((mcp_memory_get_node_relations g n).outgoing
        ++ (mcp_memory_get_node_relations g n).incoming).count r
    ∧ get_entity g n = .ok (e,
        (mcp_memory_get_node_relations g n).outgoing
        ++ (mcp_memory_get_node_relations g n).incoming) := by
  have hout : r ∈ (mcp_memory_get_node_relations g n).outgoing := by
    simp [mcp_memory_get_node_relations, List.mem_filter, hr, hf]
  have hinc : r ∈ (mcp_memory_get_node_relations g n).incoming := by
    simp [mcp_memory_get_node_relations, List.mem_filter, hr, ht]
  have hcount : ((mcp_memory_get_node_relations g n).outgoing
      ++ (mcp_memory_get_node_relations g n).incoming).count r
      = 2 * g.relations.count r := by
    rw [List.count_append]
    have h1 : (mcp_memory_get_node_relations g n).outgoing.count r
        = g.relations.count r :=
      List.count_filter (by simp [hf])
    have h2 : (mcp_memory_get_node_relations g n).incoming.count r
        = g.relations.count r :=
      List.count_filter (by simp [ht])
    rw [h1, h2]
    ring
  refine ⟨hout, hinc, ?_, hcount, ?_, ?_⟩
  · have : n ∈ (mcp_memory_get_node_relations g n).outgoing.map
        (fun r => r.to_) := by
      refine List.mem_map.mpr ⟨r, hout, ht⟩
    simp only [mcp_memory_get_node_relations, List.mem_dedup, List.mem_append]
    left
    simpa [mcp_memory_get_node_relations] using this
  · have h1 : 1 ≤ g.relations.count r := List.one_le_count_iff.mpr hr
    omega
  · exact (get_entity_spec g n hne).2 e he

def c10g : Graph := ⟨[⟨"A", "T", []⟩], [⟨"A", "A", "self"⟩]⟩

theorem self_loop_duplicated_witness :
    2 ≤ ((mcp_memory_get_node_relations c10g "A").outgoing
        ++ (mcp_memory_get_node_relations c10g "A").incoming).count
          (⟨"A", "A", "self"⟩ : Relation) :=
  (self_loop_duplicated c10g "A" ⟨"A", "A", "self"⟩ ⟨"A", "T", []⟩
    (by decide) rfl rfl (by decide) (by decide)).2.2.2.2.1

/-! ## The `/api/search` route (src/frontend/web_viewer/server.py lines
288-303; src/web_viewer/unified_server.py lines 224-238 is identical in
shape). -/

/-- The `/api/search` handler `search_graph`.  The transport is passed in
as the `call_tool` function; the second component of the result records
the tool calls the handler actually made. -/
def search_graph (call_tool : String → String → Except String Json)
    (query : String) : (Nat × Json) × List (String × String) :=
  if query = "" then
    ((200, Json.obj [("entities", .arr []), ("relations", .arr [])]), [])
  else
    match call_tool "memory_search_graph" query with
    | .ok j => ((200, j), [("memory_search_graph", query)])
    | .error e =>
      ((500, Json.obj [("error", .str ("Failed to search graph: " ++ e))]),
       [("memory_search_graph", query)])

/-- Claim C9: whatever the transport does, a search request with the empty
query string answers `{entities: [], relations: []}` with status 200 and
performs no transport call at all. -/
theorem search_empty_query_no_transport
    (call_tool : String → String → Except String Json) :
    search_graph call_tool ""
      = ((200, Json.obj [("entities", .arr []), ("relations", .arr [])]), []) :=
  rfl

/-! ## Result unwrapping of `MCPHTTPClient.call_tool`
(src/frontend/web_viewer/server.py lines 212-233). -/

/-- Python `key in container` for the JSON values that can reach this
code: key membership for a dict, element equality for a list (a string
key can only equal string elements), substring test for a string, and a
`TypeError` for the remaining values. -/
def pyContains (container : Json) (key : String) : Except String Bool :=
  match container with
  | .obj fields => .ok (fields.any (fun kv => kv.1 == key))
  | .arr elems => .ok (elems.any (fun e => match e with
      | .str s => s == key
      | _ => false))
  | .str s => .ok (hasSub key.toList s.toList)
  | _ => .error "TypeError"

/-- Python `container[key]` for a string key: dict lookup (`KeyError` when
the key is missing), `TypeError` for anything else. -/
def pyIndexStr (container : Json) (key : String) : Except String Json :=
  match container with
  | .obj fields =>
    match fields.find? (fun kv => kv.1 == key) with
    | some kv => .ok kv.2
    | none => .error "KeyError"
  | _ => .error "TypeError"

/-- Python `container[0]`: first element of a list (`IndexError` when
empty), first character of a string, `TypeError` otherwise. -/
def pyIndexZero (container : Json) : Except String Json :=
  match container with
  | .arr [] => .error "IndexError"
  | .arr (x :: _) => .ok x
  | .str s =>
    match s.toList with
    | [] => .error "IndexError"
    | c :: _ => .ok (.str (String.mk [c]))
  | _ => .error "TypeError"

/-- The response-unwrapping tail of `MCPHTTPClient.call_tool`
(server.py lines 212-233), applied to the SSE-parsed `response_data`.
`decode` stands for `json.loads` applied to the inner content text; any
exception raised along the way surfaces as `Except.error` (`call_tool`
re-raises them as `RuntimeError`). -/
def call_tool_unwrap (decode : String → Option Json) (response_data : Json) :
    Except String Json :=
  match (if response_data.truthy then pyContains response_data "error"
         else .ok false) with
  | .error e => .error e
  | .ok true => .error "MCP tool call failed"
  | .ok false =>
    match pyContains response_data "result" with
    | .error e => .error e
    | .ok true =>
      match pyIndexStr response_data "result" with
      | .error e => .error e
      | .ok tool_result =>
        match pyContains tool_result "content" with
        | .error e => .error e
        | .ok cHas =>
          match (if cHas then (pyIndexStr tool_result "content").map Json.truthy
                 else .ok false) with
          | .error e => .error e
          | .ok false => .ok (Json.obj [])
          | .ok true =>
            match pyIndexStr tool_result "content" with
            | .error e => .error e
            | .ok content =>
              match pyIndexZero content with
              | .error e => .error e
              | .ok first =>
                match pyIndexStr first "text" with
                | .error e => .error e
                | .ok (.str content_text) =>
                  match decode content_text with
                  | some v => .ok v
                  | none => .error "Failed to parse JSON response"
                | .ok _ => .error "TypeError"
    | .ok false =>
      if response_data.truthy then .ok response_data
      else .ok (Json.obj [])

/-- Modelled from the spec wording of claim C2: the unwrapping first
attempts to decode `result.content[0]` as a JSON-encoded string; if that
shape is absent it falls back to the direct JSON value of `result`; it
fails with `MalformedResult` only when neither shape parses. -/
def unwrapClaimC2 (decode : String → Option Json) (response_data : Json) :
    Except String Json :=
  match response_data.getField "result" with
  | some result =>
    match result.getField "content" with
    | some (.arr (first :: _)) =>
      match first.getField "text" with
      | some (.str s) =>
        match decode s with
        | some v => .ok v
        | none => .ok result
      | _ => .ok result
    | _ => .ok result
  | none => .error "MalformedResult"

def c2resp : Json := .obj [("result", .obj [("a", .num 42)])]

/-- Claim C2 counterexample: for the successful response
`{"result": {"a": 42}}` — `result` present, `content` shape absent — the
code returns `{}`, while the claimed fallback to the direct JSON value of
`result` would return `{"a": 42}`. -/
theorem call_tool_unwrap_counterexample :
    call_tool_unwrap (fun _ => none) c2resp = .ok (Json.obj [])
    ∧ unwrapClaimC2 (fun _ => none) c2resp = .ok (Json.obj [("a", Json.num 42)])
    ∧ call_tool_unwrap (fun _ => none) c2resp
        ≠ unwrapClaimC2 (fun _ => none) c2resp := by
  refine ⟨rfl, rfl, ?_⟩
  rw [show call_tool_unwrap (fun _ => none) c2resp = .ok (Json.obj []) from rfl,
    show unwrapClaimC2 (fun _ => none) c2resp
      = .ok (Json.obj [("a", Json.num 42)]) from rfl]
  simp

theorem any_of_getField_some {fields : List (String × Json)} {k : String} {v : Json}
    (h : (Json.obj fields).getField k = some v) :
    fields.any (fun kv => kv.1 == k) = true := by
  rw [Json.getField] at h
  cases hf : fields.find? (fun kv => kv.1 == k) with
  | none => rw [hf] at h; cases h
  | some kv =>
    have hp := List.find?_some hf
    exact List.any_eq_true.mpr ⟨kv, List.mem_of_find?_eq_some hf, hp⟩

theorem any_of_getField_none {fields : List (String × Json)} {k : String}
    (h : (Json.obj fields).getField k = none) :
    fields.any (fun kv => kv.1 == k) = false := by
  rw [Json.getField] at h
  cases hf : fields.find? (fun kv => kv.1 == k) with
  | some kv => rw [hf] at h; cases h
  | none =>
    rw [List.find?_eq_none] at hf
    simp only [List.any_eq_false]
    exact hf

theorem pyIndexStr_of_getField {fields : List (String × Json)} {k : String} {v : Json}
    (h : (Json.obj fields).getField k = some v) :
    pyIndexStr (Json.obj fields) k = .ok v := by
  rw [Json.getField] at h
  cases hf : fields.find? (fun kv => kv.1 == k) with
  | none => rw [hf] at h; cases h
  | some kv =>
    rw [hf] at h
    have h2 : kv.2 = v := by simpa using h
    simp only [pyIndexStr, hf, h2]

/-- Claim C2 amended: on a successful (no `error` field) object response,
the code decodes `result.content[0].text` when `result` carries a
non-empty `content` array whose first element has a string `text` field —
and a decode failure raises instead of falling back; when `result` is
present as an object without `content` (or with an empty `content`
array), the code returns `{}`, not the direct JSON value of `result`;
when `result` is absent, a non-empty response object is returned whole
and an empty one yields `{}`. -/
theorem call_tool_unwrap_spec (decode : String → Option Json)
    (fields : List (String × Json)) (tr : Json)
    (herr : (Json.obj fields).getField "error" = none) :
    ((Json.obj fields).getField "result" = some tr →
      ((∀ first rest, tr.getField "content" = some (.arr (first :: rest)) →
          ∀ s, first.getField "text" = some (.str s) →
          call_tool_unwrap decode (Json.obj fields)
            = match decode s with
              | some v => .ok v
              | none => .error "Failed to parse JSON response")
        ∧ (∀ tfields, tr = Json.obj tfields →
            tr.getField "content" = none →
            call_tool_unwrap decode (Json.obj fields) = .ok (Json.obj []))
        ∧ (tr.getField "content" = some (.arr []) →
            call_tool_unwrap decode (Json.obj fields) = .ok (Json.obj []))))
    ∧ ((Json.obj fields).getField "result" = none → fields ≠ [] →
        call_tool_unwrap decode (Json.obj fields) = .ok (Json.obj fields))
    ∧ ((Json.obj fields).getField "result" = none → fields = [] →
        call_tool_unwrap decode (Json.obj fields) = .ok (Json.obj [])) := by
  have hAnyErr : fields.any (fun kv => kv.1 == "error") = false :=
    any_of_getField_none herr
  refine ⟨?_, ?_, ?_⟩
  · intro hres
    have hAnyRes : fields.any (fun kv => kv.1 == "result") = true :=
      any_of_getField_some hres
    have hIdxRes : pyIndexStr (Json.obj fields) "result" = .ok tr :=
      pyIndexStr_of_getField hres
    refine ⟨?_, ?_, ?_⟩
    · intro first rest hcontent s htext
      match tr, hcontent with
      | Json.obj tfields, hcontent =>
      match first, htext with
      | Json.obj ffields, htext =>
      have hAnyCont : tfields.any (fun kv => kv.1 == "content") = true :=
        any_of_getField_some hcontent
      have hIdxCont : pyIndexStr (Json.obj tfields) "content"
          = .ok (.arr (Json.obj ffields :: rest)) :=
        pyIndexStr_of_getField hcontent
      have hIdxText : pyIndexStr (Json.obj ffields) "text" = .ok (.str s) :=
        pyIndexStr_of_getField htext
      simp only [call_tool_unwrap, pyContains, Json.truthy, hAnyErr, ite_self,
        hAnyRes, hIdxRes, hAnyCont, hIdxCont, hIdxText, if_true,
        Except.map_ok, List.isEmpty_cons, Bool.not_false, pyIndexZero]
      rfl
    · intro tfields htr hnone
      subst htr
      have hAnyCont : tfields.any (fun kv => kv.1 == "content") = false :=
        any_of_getField_none hnone
      simp only [call_tool_unwrap, pyContains, Json.truthy, hAnyErr, ite_self,
        hAnyRes, hIdxRes, hAnyCont, if_false, Bool.false_eq_true, ite_false]
    · intro hempty
      match tr, hempty with
      | Json.obj tfields, hempty =>
      have hAnyCont : tfields.any (fun kv => kv.1 == "content") = true :=
        any_of_getField_some hempty
      have hIdxCont : pyIndexStr (Json.obj tfields) "content" = .ok (.arr []) :=
        pyIndexStr_of_getField hempty
      simp only [call_tool_unwrap, pyContains, Json.truthy, hAnyErr, ite_self,
        hAnyRes, hIdxRes, hAnyCont, hIdxCont, if_true, Except.map_ok,
        List.isEmpty_nil, Bool.not_true]
      rfl
  · intro hres hne
    have hAnyRes : fields.any (fun kv => kv.1 == "result") = false :=
      any_of_getField_none hres
    match fields, hne with
    | kv :: fs, _ =>
    simp only [call_tool_unwrap, pyContains, Json.truthy, hAnyErr, ite_self,
      hAnyRes, List.isEmpty_cons, Bool.not_false, if_true]
  · intro _ hnil
    subst hnil
    rfl

def c2ok : Json :=
  .obj [("result", .obj [("content", .arr [.obj [("text", .str "[]")]])])]

theorem call_tool_unwrap_spec_witness :
    call_tool_unwrap (fun _ => some (Json.arr [])) c2ok = .ok (Json.arr []) := by
  have h := ((call_tool_unwrap_spec (fun _ => some (Json.arr []))
      [("result", .obj [("content", .arr [.obj [("text", .str "[]")]])])]
      (.obj [("content", .arr [.obj [("text", .str "[]")]])]) rfl).1 rfl).1
      (.obj [("text", .str "[]")]) [] rfl "[]" rfl
  exact h
